import Mathlib

/-!
Shallow embedding of the Cortal assignment submission-and-grading workflow
(src/server/index.js, with the grading-queue ordering from src/client/main.js).

State is the relevant slice of the server's in-memory stores: the approved
student directory (`students`), pending registrations (`pendingStudents`),
the submission store, the notification store, and the uploaded-file storage
modelled as an association list from path keys to blobs.  Timestamps
(`Date.now()` / ISO strings) are modelled as naturals; JS `Date` comparison
on ISO strings is order-isomorphic to comparison of the underlying instants.
-/

namespace Cortal

/-- An approved student record (entry of the `students` array); membership in
the array is what the code treats as approval.  Only the fields the submit
gate reads are kept. -/
structure Student where
  email : String
  muted : Bool
  deriving DecidableEq

/-- A pending (not yet approved) registration (entry of `pendingStudents`). -/
structure PendingStudent where
  email : String
  deriving DecidableEq

/-- A single image drawn onto a page via `page.drawImage(img, {x, y, width,
height})`. -/
structure Overlay where
  image : String
  x : Nat
  y : Nat
  w : Nat
  h : Nat
  deriving DecidableEq

/-- A page of a paginated document: its native size plus the images drawn on
top of its base content. -/
structure Page where
  width : Nat
  height : Nat
  overlays : List Overlay
  deriving DecidableEq

/-- Contents of a stored file: a loadable paginated document, a decodable
PNG raster, or undecodable bytes. -/
inductive Blob where
  | pdf (pages : List Page)
  | png (image : String)
  | raw
  deriving DecidableEq

/-- A submission record, as pushed by `POST /api/assignments/:id/submit`. -/
structure Submission where
  id : String
  assignmentId : String
  studentName : String
  studentEmail : String
  studentID : String
  studentNameZh : String
  filePath : String
  uploadedAt : Nat
  graded : Bool
  grade : Option String
  comments : String
  feedbackPath : Option String
  deriving DecidableEq

/-- A notification record `{ id, email, message, read, date }`. -/
structure Notification where
  id : String
  email : String
  message : String
  read : Bool
  date : Nat
  deriving DecidableEq

/-- The slice of server state the workflow touches. -/
structure ServerState where
  students : List Student
  pendingStudents : List PendingStudent
  submissions : List Submission
  notifications : List Notification
  storage : List (String × Blob)
  deriving DecidableEq

/-- Replace the first element satisfying `p` by its image under `f`; this is
how mutating the object returned by `Array.prototype.find` acts on the
containing array. -/
def updateFirst (p : α → Bool) (f : α → α) : List α → List α
  | [] => []
  | x :: xs => if p x then f x :: xs else x :: updateFirst p f xs

/-- Read a stored file (`fs.readFileSync`): the first binding for the key. -/
def storeGet (l : List (String × Blob)) (k : String) : Option Blob :=
  (l.find? (fun b => b.1 == k)).map (·.2)

/-- Delete a stored file (`fs.unlinkSync`): drop the first binding. -/
def storeDel : List (String × Blob) → String → List (String × Blob)
  | [], _ => []
  | b :: bs, k => if b.1 == k then bs else b :: storeDel bs k

/-- Write a stored file (`fs.writeFileSync`): overwrite the existing binding
or create a new one. -/
def storePut : List (String × Blob) → String → Blob → List (String × Blob)
  | [], k, v => [(k, v)]
  | b :: bs, k, v => if b.1 == k then (b.1, v) :: bs else b :: storePut bs k v

/-- `text.split('\n')[0]`. -/
def firstLine (s : String) : String :=
  (s.splitOn "\n").headD ""

/-- `createNotification(email, message)` (src/server/index.js:225): pushes a
record with `read = false`; the id is `Date.now().toString()`. -/
def createNotification (st : ServerState) (email message : String) (now : Nat) : ServerState :=
  { st with notifications :=
      st.notifications ++ [{ id := toString now, email := email, message := message,
                             read := false, date := now }] }

/-- `sendEmail(to, subject, text)` (src/server/index.js:406): awaits the mail
transport and only then creates the in-app notification, so a failed send
(`emailOk = false`) skips the notification entirely. -/
def sendEmail (st : ServerState) (toAddr subject text : String) (emailOk : Bool) (now : Nat) :
    ServerState :=
  if emailOk then createNotification st toAddr (subject ++ " – " ++ firstLine text) now
  else st

/-- Outcome of the access-gate check on a submission attempt. -/
inductive GateResult where
  | notFound
  | notApproved
  | muted
  | allowed
  deriving DecidableEq

/-- The gate portion of the submit route (src/server/index.js:472-479): look
the student up in the approved directory; reject when absent or muted. -/
def canAct (students : List Student) (email : String) : GateResult :=
  match students.find? (fun s => s.email == email) with
  | none => .notFound
  | some s => if s.muted then .muted else .allowed

/-- Errors of the submit route, in the order its early returns occur. -/
inductive SubmitError where
  | noFile
  | notApprovedYet
  | mutedErr
  | alreadyGraded
  deriving DecidableEq

/-- One submit request: route params, form fields, the multer-stored upload
key (already written to storage before the handler runs), the request time,
and whether the mail transport will succeed. -/
structure SubmitReq where
  assignmentId : String
  studentName : String
  studentEmail : String
  studentID : String
  studentNameZh : String
  file : Option String
  now : Nat
  emailOk : Bool
  deriving DecidableEq

/-- Predicate locating the submission for one (assignment, student) pair. -/
def pairPred (assignmentId studentEmail : String) (s : Submission) : Bool :=
  s.assignmentId == assignmentId && s.studentEmail == studentEmail

/-- The fresh record created on a first accepted upload. -/
def newSubmission (r : SubmitReq) (fileKey : String) : Submission :=
  { id := toString r.now, assignmentId := r.assignmentId, studentName := r.studentName,
    studentEmail := r.studentEmail, studentID := r.studentID,
    studentNameZh := r.studentNameZh, filePath := fileKey, uploadedAt := r.now,
    graded := false, grade := none, comments := "", feedbackPath := none }

/-- The in-place mutation of an existing ungraded record on re-upload
(src/server/index.js:492-495): new file path and upload time, refreshed
student id fields; everything else untouched. -/
def replaceUpd (r : SubmitReq) (fileKey : String) (s : Submission) : Submission :=
  { s with filePath := fileKey, uploadedAt := r.now,
           studentID := r.studentID, studentNameZh := r.studentNameZh }

/-- Body of the submission confirmation email. -/
def submitEmailText (r : SubmitReq) : String :=
  "Dear " ++ r.studentName ++ ",\n\nYour submission for assignment " ++ r.assignmentId ++
    " has been received."

/-- `POST /api/assignments/:id/submit` (src/server/index.js:465-519): check
the file, the gate, and the graded guard; then replace the existing ungraded
record in place (unlinking its old file) or push a fresh record; finally send
the confirmation email. -/
def submit (st : ServerState) (r : SubmitReq) : ServerState × Except SubmitError String :=
  match r.file with
  | none => (st, .error .noFile)
  | some fileKey =>
    match st.students.find? (fun s => s.email == r.studentEmail) with
    | none => (st, .error .notApprovedYet)
    | some stu =>
      if stu.muted then (st, .error .mutedErr)
      else
        match st.submissions.find? (pairPred r.assignmentId r.studentEmail) with
        | some sub =>
          if sub.graded then (st, .error .alreadyGraded)
          else
            let subs1 := updateFirst (pairPred r.assignmentId r.studentEmail)
              (replaceUpd r fileKey) st.submissions
            let stor1 := storeDel st.storage sub.filePath
            let st1 := { st with storage := stor1, submissions := subs1 }
            let st2 := sendEmail st1 r.studentEmail "Assignment submission received"
              (submitEmailText r) r.emailOk r.now
            (st2, .ok sub.id)
        | none =>
          let subs1 := st.submissions ++ [newSubmission r fileKey]
          let st1 := { st with submissions := subs1 }
          let st2 := sendEmail st1 r.studentEmail "Assignment submission received"
            (submitEmailText r) r.emailOk r.now
          (st2, .ok (toString r.now))

/-- `GET /api/assignments/:id/submissions` (src/server/index.js:522-526):
filter, in store order. -/
def listByAssignment (st : ServerState) (assignmentId : String) : List Submission :=
  st.submissions.filter (fun s => s.assignmentId == assignmentId)

/-- Ascending order on upload time, the comparator
`new Date(a.uploadedAt) - new Date(b.uploadedAt)` of src/client/main.js. -/
def subLE (a b : Submission) : Prop :=
  a.uploadedAt ≤ b.uploadedAt

instance : DecidableRel subLE := fun a b => Nat.decLe a.uploadedAt b.uploadedAt

instance : IsTotal Submission subLE := ⟨fun a b => Nat.le_total a.uploadedAt b.uploadedAt⟩

instance : IsTrans Submission subLE := ⟨fun _ _ _ => Nat.le_trans⟩

/-- Descending order on upload time, the comparator
`new Date(b.uploadedAt) - new Date(a.uploadedAt)` of src/client/main.js. -/
def subGE (a b : Submission) : Prop :=
  b.uploadedAt ≤ a.uploadedAt

instance : DecidableRel subGE := fun a b => Nat.decLe b.uploadedAt a.uploadedAt

instance : IsTotal Submission subGE := ⟨fun a b => Nat.le_total b.uploadedAt a.uploadedAt⟩

instance : IsTrans Submission subGE := ⟨fun _ _ _ h h' => Nat.le_trans h' h⟩

/-- The grading-queue view built by `openGradeModal` (src/client/main.js):
fetch the assignment's submissions, split into ungraded and graded, sort the
ungraded ascending and the graded descending by upload time, and render the
ungraded section first.  JS sort is stable, as is insertion sort. -/
def listSubmissionsView (st : ServerState) (assignmentId : String) : List Submission :=
  let subs := listByAssignment st assignmentId
  (subs.filter (fun s => !s.graded)).insertionSort subLE ++
    (subs.filter (fun s => s.graded)).insertionSort subGE

/-- Error of the grade route. -/
inductive GradeError where
  | notFound
  deriving DecidableEq

/-- One grading request: route params, form fields, the multer-stored
annotation raster key (if an annotation was uploaded), the request time, and
whether the mail transport will succeed. -/
structure GradeReq where
  assignmentId : String
  submissionId : String
  grade : String
  comments : String
  annotKey : Option String
  now : Nat
  emailOk : Bool
  deriving DecidableEq

/-- Predicate locating a submission by id within an assignment. -/
def gradePred (assignmentId submissionId : String) (s : Submission) : Bool :=
  s.id == submissionId && s.assignmentId == assignmentId

/-- First page after `firstPage.drawImage(pngImage, {x: 0, y: 0, width,
height})`: the raster is stretched full-bleed to the page's native size. -/
def overlayFirstPage (p : Page) (image : String) : Page :=
  { p with overlays := p.overlays ++ [{ image := image, x := 0, y := 0,
                                        w := p.width, h := p.height }] }

/-- The annotation merge (src/server/index.js:541-556): load the source
document, decode the raster as PNG, take the first page (`pages[0]`; an empty
document makes `getSize` throw), draw the raster over it at the page's size,
and save.  `none` is any thrown-and-caught failure. -/
def mergeBlobs : Option Blob → Option Blob → Option (List Page)
  | some (.pdf (p :: rest)), some (.png image) => some (overlayFirstPage p image :: rest)
  | _, _ => none

/-- The merge outcome of one grade request against the current state:
`none` when no annotation was uploaded or when the merge threw. -/
def mergeOutcome (st : ServerState) (r : GradeReq) (sub : Submission) : Option (List Page) :=
  match r.annotKey with
  | none => none
  | some annotKey => mergeBlobs (storeGet st.storage sub.filePath) (storeGet st.storage annotKey)

/-- The key the merged feedback document is written under:
`uploads/feedback/${Date.now()}-feedback.pdf`. -/
def feedbackKey (now : Nat) : String :=
  toString now ++ "-feedback.pdf"

/-- The in-place mutation of the record at the grading transition
(src/server/index.js:568-573): set the graded flag, grade and comments;
update the feedback reference only when a merge produced one. -/
def gradeUpd (r : GradeReq) (fb : Option String) (s : Submission) : Submission :=
  { s with graded := true, grade := some r.grade, comments := r.comments,
           feedbackPath := match fb with | some k => some k | none => s.feedbackPath }

/-- Body of the grade-posted email. -/
def gradeEmailText (r : GradeReq) (sub : Submission) (fb : Option String) : String :=
  let base := "Dear " ++ sub.studentName ++ ",\n\nYour assignment has been graded.\nGrade: " ++
    r.grade ++ "\nComments: " ++ r.comments ++ "\n"
  match fb with
  | some k => base ++ "\nYou can download your feedback file here: " ++ k
  | none => base

/-- `POST /api/assignments/:assignmentId/submissions/:submissionId/grade`
(src/server/index.js:529-585): look the submission up; if a raster was
uploaded, try the merge inside try/catch (writing the merged document under a
fresh key and unlinking the raster on success, changing nothing on failure);
then unconditionally set `graded`, `grade`, `comments`, update
`feedbackPath` only when a merge succeeded, and send the grade email. -/
def grade (st : ServerState) (r : GradeReq) : ServerState × Except GradeError (Option String) :=
  match st.submissions.find? (gradePred r.assignmentId r.submissionId) with
  | none => (st, .error .notFound)
  | some sub =>
    let st1 : ServerState :=
      match r.annotKey, mergeOutcome st r sub with
      | some annotKey, some merged =>
        let stor1 := storeDel (storePut st.storage (feedbackKey r.now) (.pdf merged)) annotKey
        { st with storage := stor1 }
      | _, _ => st
    let fb : Option String := (mergeOutcome st r sub).map (fun _ => feedbackKey r.now)
    let fb' : Option String :=
      match fb with | some k => some k | none => sub.feedbackPath
    let subs2 := updateFirst (gradePred r.assignmentId r.submissionId) (gradeUpd r fb)
      st1.submissions
    let st2 := { st1 with submissions := subs2 }
    let st3 := sendEmail st2 sub.studentEmail ("Assignment " ++ r.assignmentId ++ " graded")
      (gradeEmailText r sub fb) r.emailOk r.now
    (st3, .ok fb')

/-- `PUT /api/notifications/:id/read` (src/server/index.js:796-804): 404 when
absent, otherwise set `read = true` on the record. -/
def markRead (st : ServerState) (nid : String) : ServerState × Except Unit Bool :=
  match st.notifications.find? (fun n => n.id == nid) with
  | none => (st, .error ())
  | some _ =>
    let notifs := updateFirst (fun n => n.id == nid) (fun n => { n with read := true })
      st.notifications
    ({ st with notifications := notifs }, .ok true)

/-- One record of the student directory as the spec describes it: an email,
an approval flag, and a mute flag. -/
structure DirRecord where
  email : String
  approved : Bool
  muted : Bool
  deriving DecidableEq

/-- The directory the code holds, seen as one list of records: approved
students carry `approved = true`, pending registrations `approved = false`
(pending records carry no mute flag; they read as unmuted). -/
def directoryView (students : List Student) (pending : List PendingStudent) : List DirRecord :=
  students.map (fun s => { email := s.email, approved := true, muted := s.muted }) ++
    pending.map (fun p => { email := p.email, approved := false, muted := false })

/-- The gate decision procedure exactly as the claim words it, clause by
clause in the claim's order: `NOT_FOUND` when no approved record exists,
`NOT_APPROVED` when a record with `approved = false` is found, `MUTED` when a
record with `approved = true` and `muted = true` is found, else allowed. -/
def claimGate (dir : List DirRecord) (email : String) : GateResult :=
  if !(dir.any (fun d => d.email == email && d.approved)) then .notFound
  else if dir.any (fun d => d.email == email && !d.approved) then .notApproved
  else if dir.any (fun d => d.email == email && d.approved && d.muted) then .muted
  else .allowed

/-- At most one submission record per (assignmentId, studentEmail) pair. -/
def UniqueSubs (l : List Submission) : Prop :=
  l.Pairwise (fun a b => ¬(a.assignmentId = b.assignmentId ∧ a.studentEmail = b.studentEmail))

instance : DecidablePred UniqueSubs := fun l =>
  List.instDecidablePairwise l

/-- One step of the system: a core operation (submit, grade, markRead; the
submission listing is read-only and changes no state), or an environment
step in which the external registration/moderation routes change the student
directory but touch no submission. -/
inductive Step : ServerState → ServerState → Prop where
  | submit (st : ServerState) (r : SubmitReq) : Step st (submit st r).1
  | grade (st : ServerState) (r : GradeReq) : Step st (grade st r).1
  | markRead (st : ServerState) (nid : String) : Step st (markRead st nid).1
  | env (st : ServerState) (students : List Student) (pending : List PendingStudent) :
      Step st { st with students := students, pendingStudents := pending }

/-- States reachable by any number of steps. -/
def Reachable : ServerState → ServerState → Prop :=
  Relation.ReflTransGen Step

/-! ## Helper lemmas -/

theorem updateFirst_length (p : α → Bool) (f : α → α) :
    ∀ l : List α, (updateFirst p f l).length = l.length
  | [] => rfl
  | x :: xs => by
    by_cases h : p x <;> simp [updateFirst, h, updateFirst_length p f xs]

theorem updateFirst_get (p : α → Bool) (f : α → α) :
    ∀ (l : List α) (i : Nat) (h : i < l.length) (h' : i < (updateFirst p f l).length),
      (updateFirst p f l).get ⟨i, h'⟩ = l.get ⟨i, h⟩ ∨
        (updateFirst p f l).get ⟨i, h'⟩ = f (l.get ⟨i, h⟩)
  | [], i, h, _ => absurd h (by simp)
  | x :: xs, i, h, h' => by
    by_cases hp : p x
    · cases i with
      | zero => simp [updateFirst, hp]
      | succ j => simp [updateFirst, hp]
    · cases i with
      | zero => simp [updateFirst, hp]
      | succ j =>
        have hj : j < xs.length := by simpa using h
        have hj' : j < (updateFirst p f xs).length := by
          simpa [updateFirst_length] using hj
        simpa [updateFirst, hp] using updateFirst_get p f xs j hj hj'

theorem find?_updateFirst_same (p : α → Bool) (f : α → α) :
    ∀ {l : List α} {x : α}, l.find? p = some x → p (f x) = true →
      (updateFirst p f l).find? p = some (f x)
  | [], x, hfind, _ => by simp at hfind
  | y :: ys, x, hfind, hpf => by
    by_cases hp : p y
    · have hxy : x = y := by
        have := hfind
        rw [List.find?_cons_of_pos _ hp] at this
        exact (Option.some_injective _ this).symm
      subst hxy
      simp [updateFirst, hp, List.find?_cons_of_pos _ hpf]
    · have hfind' : ys.find? p = some x := by
        simpa [List.find?_cons_of_neg _ hp] using hfind
      simp [updateFirst, hp, List.find?_cons_of_neg _ hp,
        find?_updateFirst_same p f hfind' hpf]

theorem updateFirst_pairwise {R : α → α → Prop} (p : α → Bool) (f : α → α)
    (hR : ∀ a b, R a b → R a (f b)) (hL : ∀ a b, R a b → R (f a) b) :
    ∀ {l : List α}, l.Pairwise R → (updateFirst p f l).Pairwise R
  | [], _ => by simp [updateFirst]
  | x :: xs, h => by
    rcases List.pairwise_cons.mp h with ⟨hx, hxs⟩
    by_cases hp : p x
    · rw [updateFirst, if_pos hp]
      exact List.pairwise_cons.mpr ⟨fun b hb => hL x b (hx b hb), hxs⟩
    · rw [updateFirst, if_neg hp]
      refine List.pairwise_cons.mpr ⟨?_, updateFirst_pairwise p f hR hL hxs⟩
      intro b hb
      have : ∀ i (hi : i < xs.length) (hi' : i < (updateFirst p f xs).length),
          R x ((updateFirst p f xs).get ⟨i, hi'⟩) := by
        intro i hi hi'
        rcases updateFirst_get p f xs i hi hi' with heq | heq
        · rw [heq]; exact hx _ (xs.get_mem _ _)
        · rw [heq]; exact hR _ _ (hx _ (xs.get_mem _ _))
      rcases List.mem_iff_get.mp hb with ⟨⟨i, hi'⟩, rfl⟩
      exact this i (by simpa [updateFirst_length] using hi') hi'

theorem updateFirst_submissions_untouched (p : Submission → Bool) (f : Submission → Submission)
    (hid : ∀ s, (f s).id = s.id)
    (hmono : ∀ s, s.graded = true → (f s).graded = true) :
    ∀ (l : List Submission) (i : Nat) (h : i < l.length)
      (h' : i < (updateFirst p f l).length),
      ((updateFirst p f l).get ⟨i, h'⟩).id = (l.get ⟨i, h⟩).id ∧
        ((l.get ⟨i, h⟩).graded = true → ((updateFirst p f l).get ⟨i, h'⟩).graded = true) := by
  intro l i h h'
  rcases updateFirst_get p f l i h h' with heq | heq
  · rw [heq]; exact ⟨rfl, fun hg => hg⟩
  · rw [heq]; exact ⟨hid _, fun hg => hmono _ hg⟩

theorem storeGet_put_self (l : List (String × Blob)) (k : String) (v : Blob) :
    storeGet (storePut l k v) k = some v := by
  induction l with
  | nil => simp [storeGet, storePut]
  | cons b bs ih =>
    by_cases hb : b.1 = k
    · simp [storeGet, storePut, hb]
    · have hb' : (b.1 == k) = false := by simpa using hb
      simpa [storeGet, storePut, hb'] using ih

theorem storeGet_put_ne (l : List (String × Blob)) (k k' : String) (v : Blob)
    (h : k' ≠ k) : storeGet (storePut l k v) k' = storeGet l k' := by
  have hkk : (k == k') = false := beq_eq_false_iff_ne.mpr (Ne.symm h)
  induction l with
  | nil => simp [storeGet, storePut, hkk]
  | cons b bs ih =>
    by_cases hb : b.1 = k
    · have hbk' : (b.1 == k') = false := by rw [hb]; exact hkk
      rw [storePut, if_pos (by simp [hb])]
      simp [storeGet, hbk', hkk]
    · have hb' : (b.1 == k) = false := beq_eq_false_iff_ne.mpr hb
      rw [storePut, if_neg (by simp [hb'])]
      by_cases hbk' : (b.1 == k') = true
      · simp [storeGet, hbk']
      · have hbk'' : (b.1 == k') = false := by simpa using hbk'
        simpa [storeGet, hbk''] using ih

theorem storeGet_del_ne (l : List (String × Blob)) (k k' : String)
    (h : k' ≠ k) : storeGet (storeDel l k) k' = storeGet l k' := by
  have hkk : (k == k') = false := beq_eq_false_iff_ne.mpr (Ne.symm h)
  induction l with
  | nil => simp [storeGet, storeDel]
  | cons b bs ih =>
    by_cases hb : b.1 = k
    · have hbk' : (b.1 == k') = false := by rw [hb]; exact hkk
      rw [storeDel, if_pos (by simp [hb])]
      simp [storeGet, hbk']
    · have hb' : (b.1 == k) = false := beq_eq_false_iff_ne.mpr hb
      rw [storeDel, if_neg (by simp [hb'])]
      by_cases hbk' : (b.1 == k') = true
      · simp [storeGet, hbk']
      · have hbk'' : (b.1 == k') = false := by simpa using hbk'
        simpa [storeGet, hbk''] using ih

theorem sendEmail_submissions (st : ServerState) (a b c : String) (ok : Bool) (now : Nat) :
    (sendEmail st a b c ok now).submissions = st.submissions := by
  cases ok <;> simp [sendEmail, createNotification]

theorem sendEmail_storage (st : ServerState) (a b c : String) (ok : Bool) (now : Nat) :
    (sendEmail st a b c ok now).storage = st.storage := by
  cases ok <;> simp [sendEmail, createNotification]

theorem sendEmail_notifications_ok (st : ServerState) (a b c : String) (now : Nat) :
    (sendEmail st a b c true now).notifications =
      st.notifications ++ [{ id := toString now, email := a, message := b ++ " – " ++ firstLine c,
                             read := false, date := now }] := by
  simp [sendEmail, createNotification]

theorem sendEmail_notifications_fail (st : ServerState) (a b c : String) (now : Nat) :
    (sendEmail st a b c false now).notifications = st.notifications := by
  simp [sendEmail]

/-- Shape of a successful grade call: the returned feedback reference, the
in-place record update, and the storage effect, as functions of the merge
outcome. -/
theorem grade_found_shape (st : ServerState) (r : GradeReq) (sub : Submission)
    (hsub : st.submissions.find? (gradePred r.assignmentId r.submissionId) = some sub) :
    (grade st r).2 =
      .ok (match (mergeOutcome st r sub).map (fun _ => feedbackKey r.now) with
           | some k => some k | none => sub.feedbackPath) ∧
    (grade st r).1.submissions =
      updateFirst (gradePred r.assignmentId r.submissionId)
        (gradeUpd r ((mergeOutcome st r sub).map (fun _ => feedbackKey r.now)))
        st.submissions ∧
    (grade st r).1.storage =
      (match r.annotKey, mergeOutcome st r sub with
       | some annotKey, some merged =>
         storeDel (storePut st.storage (feedbackKey r.now) (.pdf merged)) annotKey
       | _, _ => st.storage) := by
  rcases hA : r.annotKey with _ | ak
  · have hM : mergeOutcome st r sub = none := by simp [mergeOutcome, hA]
    refine ⟨?_, ?_, ?_⟩ <;>
      simp [grade, hsub, hA, hM, sendEmail_submissions, sendEmail_storage]
  · rcases hM : mergeOutcome st r sub with _ | merged <;>
      refine ⟨?_, ?_, ?_⟩ <;>
        simp [grade, hsub, hA, hM, sendEmail_submissions, sendEmail_storage]

/-- Claim C2: a submit call against an already-graded record fails with the
ALREADY_GRADED error and leaves the whole state — the record, the submission
store, the notification store and the file storage — exactly as it was. -/
theorem submit_already_graded_rejected (st : ServerState) (r : SubmitReq) (k : String)
    (stu : Student) (sub : Submission)
    (hf : r.file = some k)
    (hstu : st.students.find? (fun s => s.email == r.studentEmail) = some stu)
    (hm : stu.muted = false)
    (hsub : st.submissions.find? (pairPred r.assignmentId r.studentEmail) = some sub)
    (hg : sub.graded = true) :
    submit st r = (st, .error .alreadyGraded) := by
  simp [submit, hf, hstu, hm, hsub, hg]

def wStu : Student := { email := "s@x.edu", muted := false }

def wSub : Submission :=
  { id := "1", assignmentId := "A1", studentName := "S", studentEmail := "s@x.edu",
    studentID := "7", studentNameZh := "z", filePath := "doc1", uploadedAt := 1,
    graded := false, grade := none, comments := "", feedbackPath := none }

def wSubG : Submission := { wSub with graded := true, grade := some "88" }

def wReq : SubmitReq :=
  { assignmentId := "A1", studentName := "S", studentEmail := "s@x.edu", studentID := "7",
    studentNameZh := "z", file := some "k2", now := 9, emailOk := true }

def wStC2 : ServerState :=
  { students := [wStu], pendingStudents := [], submissions := [wSubG], notifications := [],
    storage := [("doc1", .raw), ("k2", .raw)] }

theorem submit_already_graded_rejected_witness :
    submit wStC2 wReq = (wStC2, .error .alreadyGraded) :=
  submit_already_graded_rejected wStC2 wReq "k2" wStu wSubG rfl rfl rfl rfl rfl

/-- Claim C4: when the annotation merge fails (undecodable inputs), grading
still completes without error: the graded flag, grade and comments are set,
the feedback reference keeps its prior value, and storage is untouched. -/
theorem grade_merge_failure_nonfatal (st : ServerState) (r : GradeReq) (sub : Submission)
    (ak : String)
    (hsub : st.submissions.find? (gradePred r.assignmentId r.submissionId) = some sub)
    (hak : r.annotKey = some ak)
    (hfail : mergeBlobs (storeGet st.storage sub.filePath) (storeGet st.storage ak) = none) :
    (grade st r).2 = .ok sub.feedbackPath ∧
    (grade st r).1.storage = st.storage ∧
    (grade st r).1.submissions.find? (gradePred r.assignmentId r.submissionId) =
      some (gradeUpd r none sub) ∧
    (gradeUpd r none sub).graded = true ∧
    (gradeUpd r none sub).grade = some r.grade ∧
    (gradeUpd r none sub).comments = r.comments ∧
    (gradeUpd r none sub).feedbackPath = sub.feedbackPath := by
  have hM : mergeOutcome st r sub = none := by simp [mergeOutcome, hak, hfail]
  obtain ⟨h2, hsubs, hstor⟩ := grade_found_shape st r sub hsub
  have hp : gradePred r.assignmentId r.submissionId sub = true := List.find?_some hsub
  have hp' : gradePred r.assignmentId r.submissionId (gradeUpd r none sub) = true := by
    simpa [gradePred, gradeUpd] using hp
  refine ⟨by simpa [hM] using h2, ?_, ?_, rfl, rfl, rfl, rfl⟩
  · rw [hstor, hak, hM]
  · rw [hsubs]
    simpa [hM] using find?_updateFirst_same
      (gradePred r.assignmentId r.submissionId) (gradeUpd r none) hsub hp'

def wStC4 : ServerState :=
  { students := [wStu], pendingStudents := [], submissions := [wSub], notifications := [],
    storage := [("doc1", .raw), ("ann", .raw)] }

def wGReq : GradeReq :=
  { assignmentId := "A1", submissionId := "1", grade := "88", comments := "Good",
    annotKey := some "ann", now := 77, emailOk := true }

theorem grade_merge_failure_nonfatal_witness :
    (grade wStC4 wGReq).2 = .ok wSub.feedbackPath ∧
    (grade wStC4 wGReq).1.storage = wStC4.storage ∧
    (grade wStC4 wGReq).1.submissions.find? (gradePred "A1" "1") =
      some (gradeUpd wGReq none wSub) ∧
    (gradeUpd wGReq none wSub).graded = true ∧
    (gradeUpd wGReq none wSub).grade = some "88" ∧
    (gradeUpd wGReq none wSub).comments = "Good" ∧
    (gradeUpd wGReq none wSub).feedbackPath = wSub.feedbackPath :=
  grade_merge_failure_nonfatal wStC4 wGReq wSub "ann" rfl rfl rfl

/-- Claim C9: a grade call on an already-graded submission (regrade) is
permitted and succeeds; it updates grade, comments and (on a successful
merge) the feedback reference of the same record in place, while the
record's document reference, identity, student fields and upload timestamp
are unchanged, and no record is added or removed. -/
theorem regrade_in_place (st : ServerState) (r : GradeReq) (sub : Submission)
    (hsub : st.submissions.find? (gradePred r.assignmentId r.submissionId) = some sub)
    (hg : sub.graded = true) :
    ∃ fb, (grade st r).2 = .ok fb ∧
    ∃ sub', (grade st r).1.submissions.find? (gradePred r.assignmentId r.submissionId) =
        some sub' ∧
      sub'.graded = true ∧ sub'.grade = some r.grade ∧ sub'.comments = r.comments ∧
      sub'.filePath = sub.filePath ∧ sub'.id = sub.id ∧ sub'.uploadedAt = sub.uploadedAt ∧
      sub'.studentEmail = sub.studentEmail ∧ sub'.studentName = sub.studentName ∧
      sub'.studentID = sub.studentID ∧ sub'.studentNameZh = sub.studentNameZh ∧
      ((mergeOutcome st r sub).isSome = true → sub'.feedbackPath = some (feedbackKey r.now)) ∧
      (mergeOutcome st r sub = none → sub'.feedbackPath = sub.feedbackPath) ∧
      (grade st r).1.submissions.length = st.submissions.length := by
  obtain ⟨h2, hsubs, hstor⟩ := grade_found_shape st r sub hsub
  have hp : gradePred r.assignmentId r.submissionId sub = true := List.find?_some hsub
  set fb := (mergeOutcome st r sub).map (fun _ => feedbackKey r.now) with hfb
  have hp' : gradePred r.assignmentId r.submissionId (gradeUpd r fb sub) = true := by
    simpa [gradePred, gradeUpd] using hp
  refine ⟨_, h2, gradeUpd r fb sub, ?_, rfl, rfl, rfl, rfl, rfl, rfl, rfl, rfl, rfl, rfl,
    ?_, ?_, ?_⟩
  · rw [hsubs]
    exact find?_updateFirst_same (gradePred r.assignmentId r.submissionId) (gradeUpd r fb)
      hsub hp'
  · intro hsome
    rcases hmo : mergeOutcome st r sub with _ | m
    · rw [hmo] at hsome; simp at hsome
    · simp [gradeUpd, hfb, hmo]
  · intro hnone
    simp [gradeUpd, hfb, hnone]
  · rw [hsubs, updateFirst_length]

def wStC9 : ServerState :=
  { students := [wStu], pendingStudents := [], submissions := [wSubG], notifications := [],
    storage := [("doc1", .raw)] }

def wGReq9 : GradeReq :=
  { assignmentId := "A1", submissionId := "1", grade := "92", comments := "Better",
    annotKey := none, now := 99, emailOk := true }

theorem regrade_in_place_witness :
    ∃ fb, (grade wStC9 wGReq9).2 = .ok fb ∧
    ∃ sub', (grade wStC9 wGReq9).1.submissions.find? (gradePred "A1" "1") = some sub' ∧
      sub'.graded = true ∧ sub'.grade = some "92" ∧ sub'.comments = "Better" ∧
      sub'.filePath = wSubG.filePath ∧ sub'.id = wSubG.id ∧
      sub'.uploadedAt = wSubG.uploadedAt ∧
      sub'.studentEmail = wSubG.studentEmail ∧ sub'.studentName = wSubG.studentName ∧
      sub'.studentID = wSubG.studentID ∧ sub'.studentNameZh = wSubG.studentNameZh ∧
      ((mergeOutcome wStC9 wGReq9 wSubG).isSome = true →
        sub'.feedbackPath = some (feedbackKey 99)) ∧
      (mergeOutcome wStC9 wGReq9 wSubG = none → sub'.feedbackPath = wSubG.feedbackPath) ∧
      (grade wStC9 wGReq9).1.submissions.length = wStC9.submissions.length :=
  regrade_in_place wStC9 wGReq9 wSubG rfl rfl

/-- Claim C3: an allowed submit over an existing ungraded record replaces
its document reference and upload timestamp in place — same id, still
ungraded, no second record, and the prior stored document released — while
an allowed submit with no existing record appends a fresh record with
`graded = false`. -/
theorem submit_replace_or_create (st : ServerState) (r : SubmitReq) (k : String)
    (stu : Student)
    (hf : r.file = some k)
    (hstu : st.students.find? (fun s => s.email == r.studentEmail) = some stu)
    (hm : stu.muted = false) :
    (∀ sub, st.submissions.find? (pairPred r.assignmentId r.studentEmail) = some sub →
      sub.graded = false →
      (submit st r).2 = .ok sub.id ∧
      (submit st r).1.submissions =
        updateFirst (pairPred r.assignmentId r.studentEmail) (replaceUpd r k)
          st.submissions ∧
      (submit st r).1.submissions.find? (pairPred r.assignmentId r.studentEmail) =
        some (replaceUpd r k sub) ∧
      (replaceUpd r k sub).id = sub.id ∧
      (replaceUpd r k sub).graded = false ∧
      (replaceUpd r k sub).filePath = k ∧
      (replaceUpd r k sub).uploadedAt = r.now ∧
      (submit st r).1.submissions.length = st.submissions.length ∧
      (submit st r).1.storage = storeDel st.storage sub.filePath) ∧
    (st.submissions.find? (pairPred r.assignmentId r.studentEmail) = none →
      (submit st r).2 = .ok (toString r.now) ∧
      (submit st r).1.submissions = st.submissions ++ [newSubmission r k] ∧
      (newSubmission r k).graded = false ∧
      (newSubmission r k).filePath = k ∧
      (newSubmission r k).uploadedAt = r.now) := by
  constructor
  · intro sub hsub hg
    have hp : pairPred r.assignmentId r.studentEmail sub = true := List.find?_some hsub
    have hp' : pairPred r.assignmentId r.studentEmail (replaceUpd r k sub) = true := by
      simpa [pairPred, replaceUpd] using hp
    have hfind := find?_updateFirst_same (pairPred r.assignmentId r.studentEmail)
      (replaceUpd r k) hsub hp'
    refine ⟨?_, ?_, ?_, rfl, by simp [replaceUpd, hg], rfl, rfl, ?_, ?_⟩ <;>
      simp [submit, hf, hstu, hm, hsub, hg, sendEmail_submissions, sendEmail_storage,
        updateFirst_length, hfind]
  · intro hsub
    refine ⟨?_, ?_, rfl, rfl, rfl⟩ <;>
      simp [submit, hf, hstu, hm, hsub, sendEmail_submissions]

def wStC3 : ServerState :=
  { students := [wStu], pendingStudents := [], submissions := [wSub], notifications := [],
    storage := [("doc1", .raw), ("k2", .raw)] }

theorem submit_replace_or_create_witness :
    ((submit wStC3 wReq).2 = .ok "1" ∧
     (submit wStC3 wReq).1.submissions =
       updateFirst (pairPred "A1" "s@x.edu") (replaceUpd wReq "k2") wStC3.submissions ∧
     (submit wStC3 wReq).1.submissions.find? (pairPred "A1" "s@x.edu") =
       some (replaceUpd wReq "k2" wSub) ∧
     (replaceUpd wReq "k2" wSub).id = "1" ∧
     (replaceUpd wReq "k2" wSub).graded = false ∧
     (replaceUpd wReq "k2" wSub).filePath = "k2" ∧
     (replaceUpd wReq "k2" wSub).uploadedAt = 9 ∧
     (submit wStC3 wReq).1.submissions.length = wStC3.submissions.length ∧
     (submit wStC3 wReq).1.storage = storeDel wStC3.storage "doc1") :=
  (submit_replace_or_create wStC3 wReq "k2" wStu rfl rfl rfl).1 wSub rfl rfl

/-- Claim C7: a grade call whose annotation raster decodes composites the
raster as a full-bleed overlay stretched to the first page's native size,
onto the first page only; the merged document has the same page count, is
stored under a new key recorded as a non-null feedback reference, and the
source document is not mutated. -/
theorem grade_merge_success (st : ServerState) (r : GradeReq) (sub : Submission)
    (ak : String) (p0 : Page) (rest : List Page) (img : String)
    (hsub : st.submissions.find? (gradePred r.assignmentId r.submissionId) = some sub)
    (hak : r.annotKey = some ak)
    (hpdf : storeGet st.storage sub.filePath = some (.pdf (p0 :: rest)))
    (hpng : storeGet st.storage ak = some (.png img))
    (hfresh : storeGet st.storage (feedbackKey r.now) = none)
    (hakne : ak ≠ feedbackKey r.now) :
    (grade st r).2 = .ok (some (feedbackKey r.now)) ∧
    storeGet (grade st r).1.storage (feedbackKey r.now) =
      some (.pdf (overlayFirstPage p0 img :: rest)) ∧
    (overlayFirstPage p0 img :: rest).length = (p0 :: rest).length ∧
    overlayFirstPage p0 img =
      { p0 with overlays := p0.overlays ++
          [{ image := img, x := 0, y := 0, w := p0.width, h := p0.height }] } ∧
    storeGet (grade st r).1.storage sub.filePath = some (.pdf (p0 :: rest)) ∧
    ∃ sub', (grade st r).1.submissions.find? (gradePred r.assignmentId r.submissionId) =
        some sub' ∧ sub'.feedbackPath = some (feedbackKey r.now) := by
  have hM : mergeOutcome st r sub = some (overlayFirstPage p0 img :: rest) := by
    simp [mergeOutcome, hak, mergeBlobs, hpdf, hpng]
  obtain ⟨h2, hsubs, hstor⟩ := grade_found_shape st r sub hsub
  have hstor' : (grade st r).1.storage =
      storeDel (storePut st.storage (feedbackKey r.now) (.pdf (overlayFirstPage p0 img :: rest)))
        ak := by
    rw [hstor, hak, hM]
  have hne1 : sub.filePath ≠ ak := by
    intro e; rw [e, hpng] at hpdf; simp at hpdf
  have hne2 : sub.filePath ≠ feedbackKey r.now := by
    intro e; rw [e, hfresh] at hpdf; simp at hpdf
  have hp : gradePred r.assignmentId r.submissionId sub = true := List.find?_some hsub
  have hp' : gradePred r.assignmentId r.submissionId
      (gradeUpd r (some (feedbackKey r.now)) sub) = true := by
    simpa [gradePred, gradeUpd] using hp
  refine ⟨by simpa [hM] using h2, ?_, rfl, rfl, ?_, ?_⟩
  · rw [hstor', storeGet_del_ne _ _ _ (Ne.symm hakne), storeGet_put_self]
  · rw [hstor', storeGet_del_ne _ _ _ hne1, storeGet_put_ne _ _ _ _ hne2, hpdf]
  · refine ⟨gradeUpd r (some (feedbackKey r.now)) sub, ?_, rfl⟩
    rw [hsubs]
    simpa [hM] using find?_updateFirst_same (gradePred r.assignmentId r.submissionId)
      (gradeUpd r (some (feedbackKey r.now))) hsub hp'

def wPage1 : Page := { width := 30, height := 40, overlays := [] }

def wPage2 : Page := { width := 7, height := 8, overlays := [] }

def wStC7 : ServerState :=
  { students := [wStu], pendingStudents := [], submissions := [wSub], notifications := [],
    storage := [("doc1", .pdf [wPage1, wPage2]), ("ann", .png "IMG")] }

theorem grade_merge_success_witness :
    (grade wStC7 wGReq).2 = .ok (some (feedbackKey 77)) ∧
    storeGet (grade wStC7 wGReq).1.storage (feedbackKey 77) =
      some (.pdf (overlayFirstPage wPage1 "IMG" :: [wPage2])) ∧
    (overlayFirstPage wPage1 "IMG" :: [wPage2]).length = ([wPage1, wPage2] : List Page).length ∧
    overlayFirstPage wPage1 "IMG" =
      { wPage1 with overlays := wPage1.overlays ++
          [{ image := "IMG", x := 0, y := 0, w := wPage1.width, h := wPage1.height }] } ∧
    storeGet (grade wStC7 wGReq).1.storage wSub.filePath = some (.pdf [wPage1, wPage2]) ∧
    ∃ sub', (grade wStC7 wGReq).1.submissions.find? (gradePred "A1" "1") = some sub' ∧
      sub'.feedbackPath = some (feedbackKey 77) :=
  grade_merge_success wStC7 wGReq wSub "ann" wPage1 [wPage2] "IMG" rfl rfl rfl rfl rfl
    (by decide)

/-- Claim C6: the submissions listing presented for an assignment (server
filter plus the grading-view split-and-sort) consists of exactly the
assignment's submissions, with the ungraded ones ordered by upload time
ascending and the graded ones by upload time descending. -/
theorem listSubmissions_ordered (st : ServerState) (aid : String) :
    (listSubmissionsView st aid).Perm (listByAssignment st aid) ∧
    List.Sorted subLE ((listSubmissionsView st aid).filter (fun s => !s.graded)) ∧
    List.Sorted subGE ((listSubmissionsView st aid).filter (fun s => s.graded)) := by
  have hview : listSubmissionsView st aid =
      ((listByAssignment st aid).filter (fun s => !s.graded)).insertionSort subLE ++
        ((listByAssignment st aid).filter (fun s => s.graded)).insertionSort subGE := rfl
  have hAperm := List.perm_insertionSort subLE
    ((listByAssignment st aid).filter (fun s => !s.graded))
  have hBperm := List.perm_insertionSort subGE
    ((listByAssignment st aid).filter (fun s => s.graded))
  refine ⟨?_, ?_, ?_⟩
  · rw [hview]
    refine (hAperm.append hBperm).trans ?_
    have hcongr : (listByAssignment st aid).filter (fun s => !(!s.graded)) =
        (listByAssignment st aid).filter (fun s => s.graded) :=
      List.filter_congr (fun x _ => by simp)
    have := List.filter_append_perm (fun s => !s.graded) (listByAssignment st aid)
    rwa [hcongr] at this
  · rw [hview, List.filter_append]
    have hA : (((listByAssignment st aid).filter (fun s => !s.graded)).insertionSort
        subLE).filter (fun s => !s.graded) =
        ((listByAssignment st aid).filter (fun s => !s.graded)).insertionSort subLE := by
      refine List.filter_eq_self.mpr ?_
      intro a ha
      exact (List.mem_filter.mp ((List.mem_insertionSort subLE).mp ha)).2
    have hB : (((listByAssignment st aid).filter (fun s => s.graded)).insertionSort
        subGE).filter (fun s => !s.graded) = [] := by
      refine List.filter_eq_nil_iff.mpr ?_
      intro a ha
      have := (List.mem_filter.mp ((List.mem_insertionSort subGE).mp ha)).2
      simp [this]
    rw [hA, hB, List.append_nil]
    exact List.sorted_insertionSort subLE _
  · rw [hview, List.filter_append]
    have hA : (((listByAssignment st aid).filter (fun s => !s.graded)).insertionSort
        subLE).filter (fun s => s.graded) = [] := by
      refine List.filter_eq_nil_iff.mpr ?_
      intro a ha
      have := (List.mem_filter.mp ((List.mem_insertionSort subLE).mp ha)).2
      simp at this
      simp [this]
    have hB : (((listByAssignment st aid).filter (fun s => s.graded)).insertionSort
        subGE).filter (fun s => s.graded) =
        ((listByAssignment st aid).filter (fun s => s.graded)).insertionSort subGE := by
      refine List.filter_eq_self.mpr ?_
      intro a ha
      exact (List.mem_filter.mp ((List.mem_insertionSort subGE).mp ha)).2
    rw [hA, hB, List.nil_append]
    exact List.sorted_insertionSort subGE _

theorem any_email_false_of_not_mem (q : Student → Bool) (email : String) :
    ∀ (l : List Student), email ∉ l.map Student.email →
      l.any (fun s => s.email == email && q s) = false
  | [], _ => rfl
  | s :: rest, h => by
    have h1 : ¬s.email = email := fun e => h (by simp [e])
    have h2 : email ∉ rest.map Student.email := fun e => h (by simp [e])
    simp [beq_eq_false_iff_ne.mpr h1, any_email_false_of_not_mem q email rest h2]

theorem any_muted_of_find?_nodup (email : String) :
    ∀ (l : List Student) (stu : Student),
      l.find? (fun s => s.email == email) = some stu →
      (l.map Student.email).Nodup →
      l.any (fun s => s.email == email && s.muted) = stu.muted
  | [], stu, hfind, _ => by simp at hfind
  | s :: rest, stu, hfind, hnd => by
    have hnd' : (s.email :: rest.map Student.email).Nodup := by simpa using hnd
    rcases List.nodup_cons.mp hnd' with ⟨hns, hndr⟩
    rw [List.find?_cons] at hfind
    by_cases hs : (s.email == email) = true
    · rw [hs] at hfind
      have hse : s = stu := by simpa using hfind
      subst hse
      have hemail : s.email = email := by simpa using hs
      have hrest : email ∉ rest.map Student.email := hemail ▸ hns
      simp [hs, any_email_false_of_not_mem (fun t => t.muted) email rest hrest]
    · have hs' : (s.email == email) = false := by simpa using hs
      rw [hs'] at hfind
      simp [hs', any_muted_of_find?_nodup email rest stu hfind hndr]

theorem any_map_pred {β γ : Type} {f : β → γ} {p : γ → Bool} :
    ∀ l : List β, (l.map f).any p = l.any (fun b => p (f b))
  | [] => rfl
  | x :: xs => by simp [any_map_pred xs]

theorem directoryView_any_approved (students : List Student) (pending : List PendingStudent)
    (email : String) :
    (directoryView students pending).any (fun d => d.email == email && d.approved) =
      students.any (fun s => s.email == email) := by
  simp [directoryView, List.any_append, any_map_pred]

theorem directoryView_any_unapproved (students : List Student) (pending : List PendingStudent)
    (email : String) :
    (directoryView students pending).any (fun d => d.email == email && !d.approved) =
      pending.any (fun p => p.email == email) := by
  simp [directoryView, List.any_append, any_map_pred]

theorem directoryView_any_muted (students : List Student) (pending : List PendingStudent)
    (email : String) :
    (directoryView students pending).any (fun d => d.email == email && d.approved && d.muted) =
      students.any (fun s => s.email == email && s.muted) := by
  simp [directoryView, List.any_append, any_map_pred, Bool.and_assoc]

/-- Claim C5: the submit gate realizes exactly the claim's four-outcome
decision order over the directory (`NOT_FOUND` before `NOT_APPROVED` before
`MUTED` before allowed), and its outcome — also as surfaced by the submit
route's policy errors — is a function of the directory contents alone,
independent of any other state or prior call history. -/
theorem gate_decision_order (students : List Student) (pending : List PendingStudent)
    (email : String)
    (hnd : (students.map Student.email).Nodup)
    (hdisj : ∀ e ∈ students.map Student.email, e ∉ pending.map PendingStudent.email) :
    claimGate (directoryView students pending) email = canAct students email ∧
    (∀ (st : ServerState) (r : SubmitReq) (k : String),
      st.students = students → r.studentEmail = email → r.file = some k →
      ((submit st r = (st, .error .notApprovedYet) ↔ canAct students email = .notFound) ∧
       (submit st r = (st, .error .mutedErr) ↔ canAct students email = .muted))) := by
  constructor
  · have e1 := directoryView_any_approved students pending email
    have e2 := directoryView_any_unapproved students pending email
    have e3 := directoryView_any_muted students pending email
    rcases hfind : students.find? (fun s => s.email == email) with _ | stu
    · have h1 : students.any (fun s => s.email == email) = false :=
        List.any_eq_false.mpr (List.find?_eq_none.mp hfind)
      unfold claimGate
      rw [e1, h1]
      simp [canAct, hfind]
    · have hmem : stu ∈ students := List.mem_of_find?_eq_some hfind
      have hseq := List.find?_some hfind
      have hemail : stu.email = email := by simpa using hseq
      have h1 : students.any (fun s => s.email == email) = true :=
        List.any_eq_true.mpr ⟨stu, hmem, hseq⟩
      have hpend : email ∉ pending.map PendingStudent.email :=
        hdisj email (List.mem_map.mpr ⟨stu, hmem, hemail⟩)
      have h2 : pending.any (fun p => p.email == email) = false := by
        refine List.any_eq_false.mpr ?_
        intro p hp hpe
        exact hpend (List.mem_map.mpr ⟨p, hp, by simpa using hpe⟩)
      have h3 : students.any (fun s => s.email == email && s.muted) = stu.muted :=
        any_muted_of_find?_nodup email students stu hfind hnd
      unfold claimGate
      rw [e1, e2, e3, h1, h2, h3]
      cases hmut : stu.muted <;> simp [canAct, hfind, hmut]
  · intro st r k hst hre hfk
    subst hst; subst hre
    rcases hfind : st.students.find? (fun s => s.email == r.studentEmail) with _ | stu
    · constructor
      · simp [submit, hfk, hfind, canAct]
      · simp [submit, hfk, hfind, canAct]
    · by_cases hmut : stu.muted
      · constructor
        · simp [submit, hfk, hfind, hmut, canAct]
        · simp [submit, hfk, hfind, hmut, canAct]
      · have hcan : canAct st.students r.studentEmail = .allowed := by
          simp [canAct, hfind, hmut]
        rw [hcan]
        rcases hsub : st.submissions.find? (pairPred r.assignmentId r.studentEmail)
          with _ | sub
        · constructor <;>
            simp [submit, hfk, hfind, hmut, hsub]
        · by_cases hg : sub.graded <;> constructor <;>
            simp [submit, hfk, hfind, hmut, hsub, hg]

def wPending : PendingStudent := { email := "p@x.edu" }

theorem gate_decision_order_witness :
    claimGate (directoryView [wStu] [wPending]) "s@x.edu" = canAct [wStu] "s@x.edu" ∧
    (∀ (st : ServerState) (r : SubmitReq) (k : String),
      st.students = [wStu] → r.studentEmail = "s@x.edu" → r.file = some k →
      ((submit st r = (st, .error .notApprovedYet) ↔
          canAct [wStu] "s@x.edu" = .notFound) ∧
       (submit st r = (st, .error .mutedErr) ↔ canAct [wStu] "s@x.edu" = .muted))) :=
  gate_decision_order [wStu] [wPending] "s@x.edu" (by decide) (by decide)

/-- Every step leaves the submission store unchanged, rewrites one record in
place (pre-grade replacement or grading), or appends a fresh record for a
pair that had none. -/
theorem submissions_after_step (st st' : ServerState) (h : Step st st') :
    st'.submissions = st.submissions ∨
    (∃ r k, st'.submissions =
      updateFirst (pairPred r.assignmentId r.studentEmail) (replaceUpd r k)
        st.submissions) ∨
    (∃ r fb, st'.submissions =
      updateFirst (gradePred r.assignmentId r.submissionId) (gradeUpd r fb)
        st.submissions) ∨
    (∃ r k, st.submissions.find? (pairPred r.assignmentId r.studentEmail) = none ∧
      st'.submissions = st.submissions ++ [newSubmission r k]) := by
  cases h with
  | submit r =>
    rcases hfk : r.file with _ | k
    · exact Or.inl (by simp [submit, hfk])
    rcases hfs : st.students.find? (fun s => s.email == r.studentEmail) with _ | stu
    · exact Or.inl (by simp [submit, hfk, hfs])
    by_cases hm : stu.muted
    · exact Or.inl (by simp [submit, hfk, hfs, hm])
    rcases hsub : st.submissions.find? (pairPred r.assignmentId r.studentEmail) with _ | sub
    · refine Or.inr (Or.inr (Or.inr ⟨r, k, hsub, ?_⟩))
      simp [submit, hfk, hfs, hm, hsub, sendEmail_submissions]
    by_cases hg : sub.graded
    · exact Or.inl (by simp [submit, hfk, hfs, hm, hsub, hg])
    · refine Or.inr (Or.inl ⟨r, k, ?_⟩)
      simp [submit, hfk, hfs, hm, hsub, hg, sendEmail_submissions]
  | grade r =>
    rcases hsub : st.submissions.find? (gradePred r.assignmentId r.submissionId) with _ | sub
    · exact Or.inl (by simp [grade, hsub])
    · exact Or.inr (Or.inr (Or.inl ⟨r, (mergeOutcome st r sub).map (fun _ => feedbackKey r.now),
        (grade_found_shape st r sub hsub).2.1⟩))
  | markRead nid =>
    rcases hfind : st.notifications.find? (fun n => n.id == nid) with _ | n
    · exact Or.inl (by simp [markRead, hfind])
    · exact Or.inl (by simp [markRead, hfind])
  | env students pending => exact Or.inl rfl

theorem unique_preserved_updateFirst {p : Submission → Bool} {f : Submission → Submission}
    (hfa : ∀ s, (f s).assignmentId = s.assignmentId)
    (hfe : ∀ s, (f s).studentEmail = s.studentEmail)
    {l : List Submission} (h : UniqueSubs l) : UniqueSubs (updateFirst p f l) := by
  refine updateFirst_pairwise p f ?_ ?_ h
  · intro a b hab hcontra
    exact hab ⟨by rw [← hfa b]; exact hcontra.1, by rw [← hfe b]; exact hcontra.2⟩
  · intro a b hab hcontra
    exact hab ⟨by rw [hfa a] at hcontra; exact hcontra.1,
      by rw [hfe a] at hcontra; exact hcontra.2⟩

theorem step_preserves_unique (st st' : ServerState) (h : Step st st')
    (hu : UniqueSubs st.submissions) : UniqueSubs st'.submissions := by
  rcases submissions_after_step st st' h with heq | ⟨r, k, heq⟩ | ⟨r, fb, heq⟩ |
    ⟨r, k, hnone, heq⟩
  · rwa [heq]
  · rw [heq]
    refine unique_preserved_updateFirst ?_ ?_ hu <;> intro s <;> rfl
  · rw [heq]
    refine unique_preserved_updateFirst ?_ ?_ hu <;> intro s <;> rfl
  · rw [heq]
    refine List.pairwise_append.mpr ⟨hu, by simp [UniqueSubs], ?_⟩
    intro a ha b hb
    have hb' : b = newSubmission r k := by simpa using hb
    subst hb'
    have hnp := List.find?_eq_none.mp hnone a ha
    intro hcontra
    exact hnp (by simp [pairPred, newSubmission] at hcontra ⊢; exact hcontra)

/-- Claim C1: from any state whose submission store satisfies the
per-(assignment, student) uniqueness invariant, every state reachable by the
core operations still satisfies it, and a submit call against a pair that
already has a record never grows the store. -/
theorem submission_uniqueness_invariant (st0 st : ServerState)
    (h0 : UniqueSubs st0.submissions) (h : Reachable st0 st) :
    UniqueSubs st.submissions ∧
    ∀ (r : SubmitReq) (sub : Submission),
      st.submissions.find? (pairPred r.assignmentId r.studentEmail) = some sub →
      (submit st r).1.submissions.length = st.submissions.length := by
  have hlen : ∀ (s : ServerState) (r : SubmitReq) (sub : Submission),
      s.submissions.find? (pairPred r.assignmentId r.studentEmail) = some sub →
      (submit s r).1.submissions.length = s.submissions.length := by
    intro s r sub hsub
    rcases hfk : r.file with _ | k
    · simp [submit, hfk]
    rcases hfs : s.students.find? (fun t => t.email == r.studentEmail) with _ | stu
    · simp [submit, hfk, hfs]
    by_cases hm : stu.muted
    · simp [submit, hfk, hfs, hm]
    by_cases hg : sub.graded
    · simp [submit, hfk, hfs, hm, hsub, hg]
    · simp [submit, hfk, hfs, hm, hsub, hg, sendEmail_submissions, updateFirst_length]
  refine ⟨?_, hlen st⟩
  induction h with
  | refl => exact h0
  | tail hsteps hstep ih => exact step_preserves_unique _ _ hstep ih

def wStC1 : ServerState :=
  { students := [wStu], pendingStudents := [], submissions := [], notifications := [],
    storage := [] }

theorem submission_uniqueness_invariant_witness :
    UniqueSubs wStC1.submissions ∧
    ∀ (r : SubmitReq) (sub : Submission),
      wStC1.submissions.find? (pairPred r.assignmentId r.studentEmail) = some sub →
      (submit wStC1 r).1.submissions.length = wStC1.submissions.length :=
  submission_uniqueness_invariant wStC1 wStC1 (by decide) Relation.ReflTransGen.refl

/-- Claim C10: across every core operation step, each submission record
persists at its position with its identity, and a record graded before the
step is still graded after it — no step deletes a record or clears the
graded flag. -/
theorem get_congr {α : Type} {l l' : List α} (h : l' = l) (i : Nat)
    (hi : i < l.length) (hi' : i < l'.length) : l'.get ⟨i, hi'⟩ = l.get ⟨i, hi⟩ := by
  subst h; rfl

theorem graded_monotone_no_delete (st st' : ServerState) (h : Step st st')
    (i : Nat) (hi : i < st.submissions.length) :
    ∃ hi' : i < st'.submissions.length,
      ((st'.submissions.get ⟨i, hi'⟩).id = (st.submissions.get ⟨i, hi⟩).id ∧
       ((st.submissions.get ⟨i, hi⟩).graded = true →
         (st'.submissions.get ⟨i, hi'⟩).graded = true)) := by
  rcases submissions_after_step st st' h with heq | ⟨r, k, heq⟩ | ⟨r, fb, heq⟩ |
    ⟨r, k, _, heq⟩
  · have hi' : i < st'.submissions.length := by rw [heq]; exact hi
    refine ⟨hi', ?_⟩
    rw [get_congr heq i hi hi']
    exact ⟨rfl, fun hg => hg⟩
  · have hul : i < (updateFirst (pairPred r.assignmentId r.studentEmail) (replaceUpd r k)
        st.submissions).length := by rw [updateFirst_length]; exact hi
    have hi' : i < st'.submissions.length := by rw [heq]; exact hul
    refine ⟨hi', ?_⟩
    rw [get_congr heq i hul hi']
    exact updateFirst_submissions_untouched (pairPred r.assignmentId r.studentEmail)
      (replaceUpd r k) (fun s => rfl) (fun s hg => hg) st.submissions i hi hul
  · have hul : i < (updateFirst (gradePred r.assignmentId r.submissionId) (gradeUpd r fb)
        st.submissions).length := by rw [updateFirst_length]; exact hi
    have hi' : i < st'.submissions.length := by rw [heq]; exact hul
    refine ⟨hi', ?_⟩
    rw [get_congr heq i hul hi']
    exact updateFirst_submissions_untouched (gradePred r.assignmentId r.submissionId)
      (gradeUpd r fb) (fun s => rfl) (fun s _ => rfl) st.submissions i hi hul
  · have hul : i < (st.submissions ++ [newSubmission r k]).length := by
      rw [List.length_append]; omega
    have hi' : i < st'.submissions.length := by rw [heq]; exact hul
    refine ⟨hi', ?_⟩
    rw [get_congr heq i hul hi', List.get_append i hi]
    exact ⟨rfl, fun hg => hg⟩

def wStC10 : ServerState :=
  { students := [wStu], pendingStudents := [], submissions := [wSubG], notifications := [],
    storage := [] }

theorem graded_monotone_no_delete_witness :
    ∃ hi' : 0 < (markRead wStC10 "n1").1.submissions.length,
      (((markRead wStC10 "n1").1.submissions.get ⟨0, hi'⟩).id =
        (wStC10.submissions.get ⟨0, by decide⟩).id ∧
       ((wStC10.submissions.get ⟨0, by decide⟩).graded = true →
         ((markRead wStC10 "n1").1.submissions.get ⟨0, hi'⟩).graded = true)) :=
  graded_monotone_no_delete wStC10 (markRead wStC10 "n1").1
    (Step.markRead wStC10 "n1") 0 (by decide)

def wStC8 : ServerState :=
  { students := [wStu], pendingStudents := [], submissions := [], notifications := [],
    storage := [("k2", .raw)] }

def wReqF : SubmitReq := { wReq with emailOk := false }

/-- Counterexample to claim C8 as stated: a submission-received event whose
email send fails commits the state transition but creates no Notification
record at all — the notification is sequenced after a successful send inside
`sendEmail`, so the email failure does prevent its creation. -/
theorem notification_fanout_counterexample :
    (submit wStC8 wReqF).2 = .ok "9" ∧
    (submit wStC8 wReqF).1.submissions.length = 1 ∧
    (submit wStC8 wReqF).1.notifications = [] := by
  refine ⟨rfl, rfl, rfl⟩

/-- Claim C8 (amended): on each workflow event, when the email send succeeds
exactly one durable Notification record with `read = false` is created for
the recipient; when the email send fails no Notification record is created,
but the failure never rolls back or blocks the surrounding state transition,
which commits regardless. -/
theorem notification_fanout_amended :
    (∀ (st : ServerState) (r : SubmitReq) (sid : String),
      (submit st r).2 = .ok sid →
      ((r.emailOk = true → ∃ n : Notification,
          (submit st r).1.notifications = st.notifications ++ [n] ∧ n.read = false ∧
            n.email = r.studentEmail) ∧
       (r.emailOk = false → (submit st r).1.notifications = st.notifications) ∧
       (∃ sub ∈ (submit st r).1.submissions,
          sub.assignmentId = r.assignmentId ∧ sub.studentEmail = r.studentEmail))) ∧
    (∀ (st : ServerState) (r : GradeReq) (fb : Option String) (sub : Submission),
      st.submissions.find? (gradePred r.assignmentId r.submissionId) = some sub →
      (grade st r).2 = .ok fb →
      ((r.emailOk = true → ∃ n : Notification,
          (grade st r).1.notifications = st.notifications ++ [n] ∧ n.read = false ∧
            n.email = sub.studentEmail) ∧
       (r.emailOk = false → (grade st r).1.notifications = st.notifications) ∧
       (∃ sub', (grade st r).1.submissions.find?
            (gradePred r.assignmentId r.submissionId) = some sub' ∧
          sub'.graded = true ∧ sub'.grade = some r.grade ∧ sub'.comments = r.comments))) := by
  constructor
  · intro st r sid hok
    rcases hfk : r.file with _ | k
    · rw [submit] at hok; rw [hfk] at hok; simp at hok
    rcases hfs : st.students.find? (fun s => s.email == r.studentEmail) with _ | stu
    · simp [submit, hfk, hfs] at hok
    by_cases hm : stu.muted
    · simp [submit, hfk, hfs, hm] at hok
    rcases hsub : st.submissions.find? (pairPred r.assignmentId r.studentEmail) with _ | sub
    · refine ⟨?_, ?_, ?_⟩
      · intro he
        refine ⟨⟨toString r.now, r.studentEmail,
          "Assignment submission received" ++ " – " ++ firstLine (submitEmailText r),
          false, r.now⟩, ?_, rfl, rfl⟩
        simp [submit, hfk, hfs, hm, hsub, he, sendEmail, createNotification]
      · intro he
        simp [submit, hfk, hfs, hm, hsub, he, sendEmail_notifications_fail]
      · refine ⟨newSubmission r k, ?_, rfl, rfl⟩
        simp [submit, hfk, hfs, hm, hsub, sendEmail_submissions]
    by_cases hg : sub.graded
    · simp [submit, hfk, hfs, hm, hsub, hg] at hok
    · have hp := List.find?_some hsub
      have hp' : pairPred r.assignmentId r.studentEmail (replaceUpd r k sub) = true := by
        simpa [pairPred, replaceUpd] using hp
      have hse : sub.studentEmail = r.studentEmail := by
        simp [pairPred] at hp; exact hp.2
      have hsa : sub.assignmentId = r.assignmentId := by
        simp [pairPred] at hp; exact hp.1
      refine ⟨?_, ?_, ?_⟩
      · intro he
        refine ⟨⟨toString r.now, r.studentEmail,
          "Assignment submission received" ++ " – " ++ firstLine (submitEmailText r),
          false, r.now⟩, ?_, rfl, rfl⟩
        simp [submit, hfk, hfs, hm, hsub, hg, he, sendEmail, createNotification]
      · intro he
        simp [submit, hfk, hfs, hm, hsub, hg, he, sendEmail_notifications_fail]
      · refine ⟨replaceUpd r k sub, ?_, hsa, hse⟩
        have hfind := find?_updateFirst_same (pairPred r.assignmentId r.studentEmail)
          (replaceUpd r k) hsub hp'
        have hmem := List.mem_of_find?_eq_some hfind
        have hsubs : (submit st r).1.submissions =
            updateFirst (pairPred r.assignmentId r.studentEmail) (replaceUpd r k)
              st.submissions := by
          simp [submit, hfk, hfs, hm, hsub, hg, sendEmail_submissions]
        rw [hsubs]
        exact hmem
  · intro st r fb sub hsub hok
    have hshape := grade_found_shape st r sub hsub
    have hp := List.find?_some hsub
    have hp' : gradePred r.assignmentId r.submissionId
        (gradeUpd r ((mergeOutcome st r sub).map (fun _ => feedbackKey r.now)) sub) = true := by
      simpa [gradePred, gradeUpd] using hp
    refine ⟨?_, ?_, ?_⟩
    · intro he
      rcases hA : r.annotKey with _ | ak
      · have hM : mergeOutcome st r sub = none := by simp [mergeOutcome, hA]
        refine ⟨⟨toString r.now, sub.studentEmail,
          ("Assignment " ++ r.assignmentId ++ " graded") ++ " – " ++
            firstLine (gradeEmailText r sub none), false, r.now⟩, ?_, rfl, rfl⟩
        simp [grade, hsub, hA, hM, he, sendEmail, createNotification]
      · rcases hM : mergeOutcome st r sub with _ | merged
        · refine ⟨⟨toString r.now, sub.studentEmail,
            ("Assignment " ++ r.assignmentId ++ " graded") ++ " – " ++
              firstLine (gradeEmailText r sub none), false, r.now⟩, ?_, rfl, rfl⟩
          simp [grade, hsub, hA, hM, he, sendEmail, createNotification]
        · refine ⟨⟨toString r.now, sub.studentEmail,
            ("Assignment " ++ r.assignmentId ++ " graded") ++ " – " ++
              firstLine (gradeEmailText r sub (some (feedbackKey r.now))), false, r.now⟩,
            ?_, rfl, rfl⟩
          simp [grade, hsub, hA, hM, he, sendEmail, createNotification]
    · intro he
      rcases hA : r.annotKey with _ | ak
      · have hM : mergeOutcome st r sub = none := by simp [mergeOutcome, hA]
        simp [grade, hsub, hA, hM, he, sendEmail_notifications_fail]
      · rcases hM : mergeOutcome st r sub with _ | merged <;>
          simp [grade, hsub, hA, hM, he, sendEmail_notifications_fail]
    · refine ⟨gradeUpd r ((mergeOutcome st r sub).map (fun _ => feedbackKey r.now)) sub,
        ?_, rfl, rfl, rfl⟩
      rw [hshape.2.1]
      exact find?_updateFirst_same (gradePred r.assignmentId r.submissionId)
        (gradeUpd r ((mergeOutcome st r sub).map (fun _ => feedbackKey r.now))) hsub hp'

theorem notification_fanout_amended_witness :
    ((∃ n : Notification, (submit wStC8 wReq).1.notifications = wStC8.notifications ++ [n] ∧
       n.read = false ∧ n.email = "s@x.edu") ∧
     (∃ sub ∈ (submit wStC8 wReq).1.submissions,
       sub.assignmentId = "A1" ∧ sub.studentEmail = "s@x.edu")) ∧
    ((∃ n : Notification, (grade wStC4 wGReq).1.notifications = wStC4.notifications ++ [n] ∧
       n.read = false ∧ n.email = wSub.studentEmail) ∧
     (∃ sub', (grade wStC4 wGReq).1.submissions.find? (gradePred "A1" "1") = some sub' ∧
       sub'.graded = true ∧ sub'.grade = some "88" ∧ sub'.comments = "Good")) := by
  have h1 := notification_fanout_amended.1 wStC8 wReq "9" rfl
  have h2 := notification_fanout_amended.2 wStC4 wGReq none wSub rfl rfl
  exact ⟨⟨h1.1 rfl, h1.2.2⟩, ⟨h2.1 rfl, h2.2.2⟩⟩

end Cortal
